import Mathlib

/-!
Shallow embedding of the GradeFactory job-orchestration core
(`src/gradefactory/job_manager.py`, `src/gradefactory/pipeline.py`,
`src/gradefactory/grading.py`) and proofs about its claimed properties.

Conventions of the embedding:
* Python dicts (the registry `JobManager.jobs` and the per-job `stages` map)
  are modelled as insertion-ordered association lists over `String` keys,
  with lookup / first-match update / insert-or-replace / delete mirroring
  dict semantics (dict keys are unique, so first-match update and
  whole-key delete coincide with dict mutation).
* Filesystem paths are modelled by their lists of components; `pathlib`'s
  `relative_to` succeeds exactly when the root's components are a prefix
  of the path's components.
* Wall-clock fields (`created_at`, `updated_at`) are omitted: no claim
  mentions them.
* The thread pool runs each job's worker function as a sequence of atomic
  registry mutations (each Python mutator takes the single registry lock);
  a worker run is modelled as the list of `RegOp`s it performs, with the
  outcome of each external pipeline invocation as a parameter.
-/

namespace GradeFactory

/-- Job/stage status values (`job_manager.py` lines 14-17). -/
inductive Status
  | pending
  | running
  | completed
  | failed
deriving DecidableEq, Repr

/-- A filesystem path, modelled as its list of components. -/
abbrev FsPath := List String

/-- `StageSnapshot` (`job_manager.py` lines 20-26). -/
structure StageSnapshot where
  name : String
  status : Status := .pending
  stdout : String := ""
  stderr : String := ""
  output_files : List FsPath := []
deriving DecidableEq, Repr

/-- `JobPaths` (`pipeline.py` lines 27-35). -/
structure JobPaths where
  job_id : String
  root : FsPath
  raw_input : FsPath
  processed : FsPath
  graded : FsPath
  rubric : FsPath
  artifacts : FsPath
deriving DecidableEq, Repr

/-- `JobRecord` (`job_manager.py` lines 29-38); timestamps omitted. -/
structure JobRecord where
  job_id : String
  job_type : String
  status : Status
  paths : JobPaths
  stages : List (String × StageSnapshot)
  error : Option String := none
deriving DecidableEq, Repr

/-- `StageResult` (`pipeline.py` lines 14-18). -/
structure StageResult where
  output_files : List FsPath
  stdout : String
  stderr : String
deriving DecidableEq, Repr

/-- `PipelineResult` (`pipeline.py` lines 21-24). -/
structure PipelineResult where
  processing : Option StageResult
  grading : Option StageResult
deriving DecidableEq, Repr

/-- Dict lookup (`d.get(key)`). -/
def alistLookup {α : Type} : List (String × α) → String → Option α
  | [], _ => none
  | (k, v) :: rest, key => if k = key then some v else alistLookup rest key

/-- Dict value mutation in place (`d[key].field = ...` on an existing key);
a no-op when the key is absent. -/
def alistUpdate {α : Type} : List (String × α) → String → (α → α) → List (String × α)
  | [], _, _ => []
  | (k, v) :: rest, key, f =>
    if k = key then (k, f v) :: rest else (k, v) :: alistUpdate rest key f

/-- Dict assignment (`d[key] = v`): replaces in place, or appends a new key. -/
def alistInsert {α : Type} : List (String × α) → String → α → List (String × α)
  | [], key, v => [(key, v)]
  | (k, w) :: rest, key, v =>
    if k = key then (k, v) :: rest else (k, w) :: alistInsert rest key v

/-- Dict deletion (`del d[key]`). -/
def alistErase {α : Type} (l : List (String × α)) (key : String) : List (String × α) :=
  l.filter fun p => decide (p.1 ≠ key)

/-- The registry mapping `JobManager.jobs` (`job_manager.py` line 47). -/
abbrev Registry := List (String × JobRecord)

/-- `JobManager.get_job` (`job_manager.py` lines 76-78). -/
def get_job (r : Registry) (id : String) : Option JobRecord := alistLookup r id

/-- `JobManager.list_jobs` (`job_manager.py` lines 72-74). -/
def list_jobs (r : Registry) : List JobRecord := r.map (·.2)

/-- `GradeFactoryPipeline.create_job_workspace` (`pipeline.py` lines 56-68),
restricted to the returned `JobPaths` (directory creation is storage I/O). -/
def create_job_workspace (jobs_root : FsPath) (job_id : String) : JobPaths :=
  let job_root := jobs_root ++ [job_id]
  { job_id := job_id
    root := job_root
    raw_input := job_root ++ ["raw"]
    processed := job_root ++ ["processed"]
    graded := job_root ++ ["graded"]
    rubric := job_root ++ ["rubric"]
    artifacts := job_root ++ ["artifacts"] }

/-- `JobManager._initial_stages` (`job_manager.py` lines 182-188). -/
def initial_stages (job_type : String) : List (String × StageSnapshot) :=
  (if job_type = "process" ∨ job_type = "full"
    then [("processing", { name := "processing" })] else []) ++
  (if job_type = "grade" ∨ job_type = "full"
    then [("grading", { name := "grading" })] else [])

/-- `JobManager.create_job` (`job_manager.py` lines 55-70): allocates the
workspace, builds a `pending` record with the type-determined stages and
stores it under its id. -/
def create_job (r : Registry) (job_type : String) (paths : JobPaths) :
    Registry × JobRecord :=
  let record : JobRecord :=
    { job_id := paths.job_id
      job_type := job_type
      status := .pending
      paths := paths
      stages := initial_stages job_type }
  (alistInsert r record.job_id record, record)

/-- `JobManager._mark_job_running` (`job_manager.py` lines 190-197). -/
def mark_job_running (r : Registry) (id : String) : Registry :=
  alistUpdate r id fun record =>
    if record.status = .pending then { record with status := .running } else record

/-- The `all(stage.status == JOB_STATUS_COMPLETED for stage in record.stages.values())`
check of `JobManager._mark_job_completed` (`job_manager.py` line 204). -/
def all_stages_completed (record : JobRecord) : Bool :=
  record.stages.all fun s => decide (s.2.status = .completed)

/-- `JobManager._mark_job_completed` (`job_manager.py` lines 199-206). -/
def mark_job_completed (r : Registry) (id : String) : Registry :=
  alistUpdate r id fun record =>
    if all_stages_completed record then { record with status := .completed } else record

/-- `JobManager._mark_stage_status` (`job_manager.py` lines 208-217). -/
def mark_stage_status (r : Registry) (id stage_name : String) (status : Status) :
    Registry :=
  alistUpdate r id fun record =>
    { record with
      stages := alistUpdate record.stages stage_name fun s => { s with status := status } }

/-- `JobManager._relative_output` (`job_manager.py` lines 253-257):
`path.relative_to(job_root)` succeeds exactly when `job_root`'s components
are a leading run of `path`'s, returning the remainder; otherwise the
`ValueError` branch returns the path verbatim. -/
def relative_output (job_root : FsPath) (path : FsPath) : FsPath :=
  if job_root.isPrefixOf path then path.drop job_root.length else path

/-- `JobManager._complete_stage` (`job_manager.py` lines 219-233). -/
def complete_stage (r : Registry) (id stage_name : String) (result : StageResult) :
    Registry :=
  alistUpdate r id fun record =>
    { record with
      stages := alistUpdate record.stages stage_name fun s =>
        { s with
          status := .completed
          stdout := result.stdout
          stderr := result.stderr
          output_files := result.output_files.map (relative_output record.paths.root) } }

/-- `JobManager._fail_stage` (`job_manager.py` lines 235-251). -/
def fail_stage (r : Registry) (id stage_name : String) (message : String) : Registry :=
  alistUpdate r id fun record =>
    { record with
      status := .failed
      error := some message
      stages := alistUpdate record.stages stage_name fun s =>
        { s with
          status := .failed
          stderr := if s.stderr ≠ "" then s.stderr ++ "\n" ++ message else message } }

/-- Failure modes of job deletion (spec section 7). -/
inductive DeleteError
  | notFound
  | jobBusy
deriving DecidableEq, Repr

/-- Modelled from the spec: `JobManager.delete_job` is missing from the provided
sources; only its caller `api.delete_job` (`api.py` lines 87-95, mapping
`KeyError` to 404 "Job not found" and `RuntimeError` to 400) appears.  Spec
section 4.2: `deleteJob(id)` fails with `NotFound` if the id is absent, fails
with `JobBusy` if the job is `running`, and otherwise removes the record. -/
def delete_job (r : Registry) (id : String) : Except DeleteError Registry :=
  match alistLookup r id with
  | none => .error .notFound
  | some record =>
    if record.status = .running then .error .jobBusy
    else .ok (alistErase r id)

/-- The `except Exception` boundary of a worker: the outcome of one pipeline
invocation as seen by the scheduler (`job_manager.py` lines 118-131). -/
inductive StageOutcome
  | ok (result : StageResult)
  | err (message : String)

/-- One atomic registry mutation (each acquires the single registry lock). -/
inductive RegOp
  | markRunning (id : String)
  | markStage (id stage : String) (status : Status)
  | completeStage (id stage : String) (result : StageResult)
  | failStage (id stage : String) (message : String)
  | markCompleted (id : String)

/-- Interpret one registry mutation. -/
def applyOp (r : Registry) : RegOp → Registry
  | .markRunning id => mark_job_running r id
  | .markStage id stage status => mark_stage_status r id stage status
  | .completeStage id stage result => complete_stage r id stage result
  | .failStage id stage message => fail_stage r id stage message
  | .markCompleted id => mark_job_completed r id

/-- Interpret a sequence of registry mutations. -/
def applyOps (r : Registry) (ops : List RegOp) : Registry := ops.foldl applyOp r

/-- All registry states a concurrent reader can observe while a worker performs
`ops`: the lock is released between consecutive mutations, so every
intermediate state (plus the initial and final one) is observable. -/
def statesAlong (r : Registry) : List RegOp → List Registry
  | [] => [r]
  | op :: rest => r :: statesAlong (applyOp r op) rest

/-- `JobManager._run_processing_job` (`job_manager.py` lines 115-131) as its
sequence of registry mutations.  `out` is the outcome of the `try` block
(the pipeline invocation; a missing record raising `ValueError` is the
`err` case with that message). -/
def processing_job_ops (id : String) (out : StageOutcome) : List RegOp :=
  .markRunning id :: .markStage id "processing" .running ::
    (match out with
     | .ok result => [.completeStage id "processing" result, .markCompleted id]
     | .err m => [.failStage id "processing" m])

/-- `JobManager._run_grading_job` (`job_manager.py` lines 133-149) as its
sequence of registry mutations. -/
def grading_job_ops (id : String) (out : StageOutcome) : List RegOp :=
  .markRunning id :: .markStage id "grading" .running ::
    (match out with
     | .ok result => [.completeStage id "grading" result, .markCompleted id]
     | .err m => [.failStage id "grading" m])

/-- `JobManager._run_full_pipeline` (`job_manager.py` lines 151-180) as its
sequence of registry mutations: on a processing failure the worker fails the
processing stage and returns; only on processing success does it start the
grading stage, whose outcome `gout` is otherwise never consumed. -/
def full_pipeline_ops (id : String) (pout gout : StageOutcome) : List RegOp :=
  .markRunning id :: .markStage id "processing" .running ::
    (match pout with
     | .err m => [.failStage id "processing" m]
     | .ok presult =>
       .completeStage id "processing" presult :: .markStage id "grading" .running ::
         (match gout with
          | .ok gresult => [.completeStage id "grading" gresult, .markCompleted id]
          | .err m => [.failStage id "grading" m]))

/-- Whether a registry mutation is a `fail_stage` call. -/
def isFailOp : RegOp → Bool
  | .failStage _ _ _ => true
  | _ => false

/-- `fail_stage` occurs at most as the final mutation of a worker run. -/
def failOnlyLast : List RegOp → Bool
  | [] => true
  | [_] => true
  | op :: rest => !isFailOp op && failOnlyLast rest

/-- The new-output-file computation of `GradeFactoryPipeline.run_processing`
(`pipeline.py` lines 85-97): the runner snapshots the file names in the
output directory before the capability runs (`before`) and after (`after`,
the keys of the `after` dict), and reports
`[after[name] for name in sorted(after.keys()) if name not in before]`. -/
def run_processing_new_files (before after : List String) : List String :=
  (List.insertionSort (· ≤ ·) after).filter fun name => decide (name ∉ before)

/-- The identical new-output-file computation of
`GradeFactoryPipeline.run_grading` (`pipeline.py` lines 120-132). -/
def run_grading_new_files (before after : List String) : List String :=
  (List.insertionSort (· ≤ ·) after).filter fun name => decide (name ∉ before)

/-- `GradeFactoryPipeline.run_full_pipeline` (`pipeline.py` lines 136-163):
`run_processing` runs first with no exception handler, so its fault
propagates and `run_grading` — a function of the processing result, since it
reads the processed directory — is invoked only on success. -/
def run_full_pipeline (processing_run : Except String StageResult)
    (grading_run : StageResult → Except String StageResult) :
    Except String PipelineResult :=
  match processing_run with
  | .error e => .error e
  | .ok processing_result =>
    match grading_run processing_result with
    | .error e => .error e
    | .ok grading_result => .ok ⟨some processing_result, some grading_result⟩

/-- The outcome of grading one paper inside `run_grading`'s per-file loop
(`grading.py` lines 147-172): either the final moderator evaluation was
produced and saved, or some step (text extraction, external evaluation,
saving) raised with the given message. -/
inductive PaperEval
  | ok (finalEvaluation : String)
  | err (message : String)
deriving DecidableEq, Repr

/-- Whether a paper evaluation succeeded. -/
def PaperEval.isOk : PaperEval → Bool
  | .ok _ => true
  | .err _ => false

/-- `filename.lower().endswith(".pdf")` (`grading.py` line 142). -/
def is_pdf_name (filename : String) : Bool :=
  List.isSuffixOf ".pdf".data (filename.data.map Char.toLower)

/-- The diagnostic line `print(f"Error evaluating {paper_path}: {e}", file=sys.stderr)`
(`grading.py` line 172); `print` appends a newline. -/
def grading_err_line (paper_path message : String) : String :=
  "Error evaluating " ++ paper_path ++ ": " ++ message ++ "\n"

/-- What the per-file loop of `run_grading` leaves behind: the evaluation
files it saved (named after their papers) and the text printed to the
captured stderr stream. -/
structure GradingLoopRun where
  written : List String
  stderrText : String
deriving Repr

/-- The per-file loop of `run_grading` (`grading.py` lines 141-172): each
paper whose evaluation raises is caught inside the loop, its diagnostic line
goes to stderr, and the loop continues with the remaining papers.  (The
batch-summary step after the loop is not part of any claim.) -/
def run_grading_loop (input_folder : String) (evalPaper : String → PaperEval) :
    List String → GradingLoopRun
  | [] => ⟨[], ""⟩
  | filename :: rest =>
    if is_pdf_name filename then
      let r := run_grading_loop input_folder evalPaper rest
      match evalPaper filename with
      | .ok _ => ⟨filename :: r.written, r.stderrText⟩
      | .err m =>
        ⟨r.written, grading_err_line (input_folder ++ "/" ++ filename) m ++ r.stderrText⟩
    else run_grading_loop input_folder evalPaper rest

/-- Option-valued job status as observed through `get_job`. -/
def jobStatus (r : Registry) (id : String) : Option Status :=
  (get_job r id).map (·.status)

/-- Option-valued stage status as observed through `get_job`. -/
def stageStatus (r : Registry) (id stage : String) : Option Status :=
  match get_job r id with
  | some record => (alistLookup record.stages stage).map (·.status)
  | none => none

/-- Whether `get_job` observes the job with every stage `completed`. -/
def jobAllStagesCompleted (r : Registry) (id : String) : Bool :=
  match get_job r id with
  | some record => all_stages_completed record
  | none => false

/-- The easy direction of the completion invariant at one observable state:
if the observed job status is `completed` then every stage is `completed`. -/
def completedImpliesStages (r : Registry) (id : String) : Bool :=
  match get_job r id with
  | some record => !(decide (record.status = .completed)) || all_stages_completed record
  | none => true

/-- The full completion invariant at one observable state: the observed job
status is `completed` exactly when every stage is `completed`. -/
def statusIffStages (r : Registry) (id : String) : Bool :=
  match get_job r id with
  | some record => decide (record.status = .completed) == all_stages_completed record
  | none => true

/-- Whether `get_job` observes the job carrying a non-empty error message. -/
def errorNonEmpty (r : Registry) (id : String) : Bool :=
  match get_job r id with
  | some record =>
    match record.error with
    | some e => decide (e ≠ "")
    | none => false
  | none => false

/-- Canonical workspace used by the concrete witnesses. -/
def samplePaths : JobPaths := create_job_workspace ["jobs"] "j"

/-- Canonical stage result used by the concrete witnesses. -/
def sampleResult : StageResult :=
  { output_files := [["jobs", "j", "processed", "a.pdf"], ["elsewhere", "b.pdf"]]
    stdout := ""
    stderr := "" }

/-- The record freshly created for a `process` job in the witnesses. -/
def sampleRecord : JobRecord := (create_job [] "process" samplePaths).2

/-- The fresh `processing` stage snapshot of `sampleRecord`. -/
def sampleStage : StageSnapshot := { name := "processing" }

/-- A registry holding exactly one fresh `process` job with id `"j"`. -/
def procRegistry : Registry := (create_job [] "process" samplePaths).1

/-- The registry state a reader can observe after the worker of the `process`
job completed its only stage but before it recomputed job completion (the
lock is released between `_complete_stage` and `_mark_job_completed`). -/
def midCompletionRegistry : Registry :=
  applyOps procRegistry
    [.markRunning "j", .markStage "j" "processing" .running,
     .completeStage "j" "processing" ⟨[], "", ""⟩]

/-- A registry holding one `failed` job with an empty stage map: a job created
with the unrecognized type `"bogus"` whose worker then failed (the named
stage being absent, only the job status and error are set). -/
def failedEmptyStagesRegistry : Registry :=
  fail_stage (create_job [] "bogus" samplePaths).1 "j" "processing" "boom"

/-- A registry holding one `process` job whose worker failed its stage. -/
def failedProcRegistry : Registry :=
  fail_stage procRegistry "j" "processing" "boom"

/-- The record of the failed `process` job in `failedProcRegistry`. -/
def failedProcRecord : JobRecord :=
  { job_id := "j"
    job_type := "process"
    status := .failed
    paths := samplePaths
    stages := [("processing",
      { name := "processing", status := .failed, stderr := "boom" })]
    error := some "boom" }

/-- Paper evaluation outcomes used by the C10 witness: `b.pdf` fails. -/
def sampleEval : String → PaperEval :=
  fun f => if f = "b.pdf" then .err "boom" else .ok "ok"

/-- A registry holding exactly one fresh `grade` job with id `"j"`. -/
def gradeRegistry : Registry := (create_job [] "grade" samplePaths).1

/-- A registry holding exactly one fresh `full` job with id `"j"`. -/
def fullRegistry : Registry := (create_job [] "full" samplePaths).1

end GradeFactory

namespace GradeFactory

theorem alistLookup_update {α : Type} (key : String) (f : α → α) (q : String) :
    ∀ l : List (String × α),
      alistLookup (alistUpdate l key f) q =
        if q = key then (alistLookup l q).map f else alistLookup l q := by
  intro l
  induction l with
  | nil => by_cases h : q = key <;> simp [alistLookup, alistUpdate, h]
  | cons p rest ih =>
    obtain ⟨k, v⟩ := p
    by_cases hk : k = key
    · subst hk
      by_cases hq : q = k
      · subst hq
        simp [alistLookup, alistUpdate]
      · have hkq : ¬ k = q := fun h => hq h.symm
        simp [alistLookup, alistUpdate, hq, hkq]
    · by_cases hq : q = k
      · subst hq
        simp [alistLookup, alistUpdate, hk]
      · have hkq : ¬ k = q := fun h => hq h.symm
        simp [alistLookup, alistUpdate, hk, hkq, ih]

theorem alistLookup_insert_self {α : Type} (key : String) (v : α) :
    ∀ l : List (String × α), alistLookup (alistInsert l key v) key = some v := by
  intro l
  induction l with
  | nil => simp [alistInsert, alistLookup]
  | cons p rest ih =>
    obtain ⟨k, w⟩ := p
    by_cases hk : k = key
    · subst hk; simp [alistInsert, alistLookup]
    · simp [alistInsert, alistLookup, hk, ih]

theorem alistLookup_erase_self {α : Type} (key : String) :
    ∀ l : List (String × α), alistLookup (alistErase l key) key = none := by
  intro l
  induction l with
  | nil => simp [alistErase, alistLookup]
  | cons p rest ih =>
    obtain ⟨k, w⟩ := p
    by_cases hk : k = key
    · subst hk; simpa [alistErase, alistLookup] using ih
    · simpa [alistErase, alistLookup, hk] using ih

/-- C8: the stage map of a freshly created job is exactly determined by the
job type: only `processing` for type `process`, only `grading` for type
`grade`, and `processing` then `grading` (in that insertion order) for type
`full`; `create_job` installs precisely `initial_stages job_type` on the new
`pending` record. -/
theorem C8_initial_stages (r : Registry) (paths : JobPaths) (job_type : String) :
    initial_stages "process" = [("processing", { name := "processing" })] ∧
    initial_stages "grade" = [("grading", { name := "grading" })] ∧
    initial_stages "full" =
      [("processing", { name := "processing" }), ("grading", { name := "grading" })] ∧
    ((create_job r job_type paths).2).stages = initial_stages job_type ∧
    ((create_job r job_type paths).2).status = .pending :=
  ⟨by decide, by decide, by decide, rfl, rfl⟩

/-- C9: `create_job` performs no validation of the job type: an unrecognized
type yields a `pending` record whose stage map is empty, and recomputing job
completion on it immediately marks the job `completed`, the all-stages check
holding vacuously over the empty map. -/
theorem C9_unrecognized_type (r : Registry) (paths : JobPaths) (job_type : String)
    (h1 : job_type ≠ "process") (h2 : job_type ≠ "grade") (h3 : job_type ≠ "full") :
    ((create_job r job_type paths).2).status = .pending ∧
    ((create_job r job_type paths).2).stages = [] ∧
    jobStatus (mark_job_completed (create_job r job_type paths).1 paths.job_id)
      paths.job_id = some .completed := by
  have hstages : initial_stages job_type = [] := by
    simp [initial_stages, h1, h2, h3]
  refine ⟨rfl, hstages, ?_⟩
  have hlook :
      alistLookup (create_job r job_type paths).1 paths.job_id =
        some (create_job r job_type paths).2 :=
    alistLookup_insert_self _ _ _
  have hall : all_stages_completed (create_job r job_type paths).2 = true := by
    simp [all_stages_completed, create_job, hstages]
  simp [jobStatus, get_job, mark_job_completed, alistLookup_update, hlook, hall]

/-- C9 witness at the concrete unrecognized type `"bogus"`. -/
theorem C9_unrecognized_type_witness :
    jobStatus (mark_job_completed (create_job [] "bogus" samplePaths).1 "j") "j" =
      some .completed :=
  (C9_unrecognized_type [] samplePaths "bogus" (by decide) (by decide) (by decide)).2.2

/-- C1: `delete_job` fails with `NotFound` when no job with the id exists,
fails with `JobBusy` when the job's status is `running`, and on a `pending`,
`completed` or `failed` job succeeds, after which `get_job` returns absent. -/
theorem C1_delete_job (r : Registry) (id : String) :
    (get_job r id = none → delete_job r id = .error .notFound) ∧
    (∀ record, get_job r id = some record → record.status = .running →
      delete_job r id = .error .jobBusy) ∧
    (∀ record, get_job r id = some record →
      record.status = .pending ∨ record.status = .completed ∨ record.status = .failed →
      ∃ r', delete_job r id = .ok r' ∧ get_job r' id = none) := by
  refine ⟨?_, ?_, ?_⟩
  · intro h
    simp only [get_job] at h
    simp [delete_job, h]
  · intro record h hrun
    simp only [get_job] at h
    simp [delete_job, h, hrun]
  · intro record h hst
    simp only [get_job] at h
    have hne : ¬ record.status = .running := by
      rcases hst with h1 | h1 | h1 <;> simp [h1]
    refine ⟨alistErase r id, ?_, ?_⟩
    · simp [delete_job, h, hne]
    · exact alistLookup_erase_self id r

/-- C1 witness: deleting the fresh (`pending`) sample job succeeds and a
subsequent `get_job` returns absent. -/
theorem C1_delete_job_witness :
    ∃ r', delete_job procRegistry "j" = .ok r' ∧ get_job r' "j" = none :=
  (C1_delete_job procRegistry "j").2.2 sampleRecord rfl (Or.inl rfl)

theorem stageStatus_update_keeps_stages (r : Registry) (id' : String)
    (f : JobRecord → JobRecord) (hf : ∀ rec, (f rec).stages = rec.stages)
    (id st : String) :
    stageStatus (alistUpdate r id' f) id st = stageStatus r id st := by
  unfold stageStatus get_job
  rw [alistLookup_update]
  by_cases h : id = id'
  · cases hl : alistLookup r id <;> simp [h, hl, hf]
  · simp [h]

theorem stageStatus_update_other_stage (r : Registry) (id' name : String)
    (g : StageSnapshot → StageSnapshot) (f : JobRecord → JobRecord)
    (hf : ∀ rec, (f rec).stages = alistUpdate rec.stages name g)
    (id st : String) (hst : st ≠ name) :
    stageStatus (alistUpdate r id' f) id st = stageStatus r id st := by
  unfold stageStatus get_job
  rw [alistLookup_update]
  by_cases h : id = id'
  · cases hl : alistLookup r id <;> simp [h, hl, hf, alistLookup_update, hst]
  · simp [h]

/-- C4: when the processing stage of a `full` job raises, the worker's whole
mutation sequence is the fixed three-step list — mark job running, mark
processing running, fail processing — independent of the grading outcome
(so the score capability is never invoked and the grading stage is never
started); a `pending` grading stage is still `pending` afterwards; and the
pipeline facade propagates only the transform fault, never calling the
grading runner. -/
theorem C4_full_failure_containment (id m : String) (gout : StageOutcome) :
    (full_pipeline_ops id (.err m) gout =
      [.markRunning id, .markStage id "processing" .running,
       .failStage id "processing" m]) ∧
    (∀ r : Registry, stageStatus r id "grading" = some .pending →
      stageStatus (applyOps r (full_pipeline_ops id (.err m) gout)) id "grading" =
        some .pending) ∧
    (∀ grading_run, run_full_pipeline (.error m) grading_run = .error m) := by
  refine ⟨rfl, ?_, fun _ => rfl⟩
  intro r h
  have e1 : applyOps r (full_pipeline_ops id (.err m) gout) =
      fail_stage
        (mark_stage_status (mark_job_running r id) id "processing" .running)
        id "processing" m := rfl
  rw [e1]
  rw [show ∀ r' : Registry, fail_stage r' id "processing" m =
        alistUpdate r' id _ from fun _ => rfl]
  rw [stageStatus_update_other_stage _ id "processing" _ _ (fun _ => rfl) id "grading"
    (by decide)]
  rw [show mark_stage_status (mark_job_running r id) id "processing" .running =
        alistUpdate (mark_job_running r id) id _ from rfl]
  rw [stageStatus_update_other_stage _ id "processing" _ _ (fun _ => rfl) id "grading"
    (by decide)]
  rw [show mark_job_running r id = alistUpdate r id _ from rfl]
  rw [stageStatus_update_keeps_stages _ id _ ?hf id "grading"]
  · exact h
  · intro rec
    by_cases hp : rec.status = .pending <;> simp [hp]

/-- C4 witness: the fresh `full` job's grading stage is `pending` and stays
`pending` after the worker runs with a failing processing stage. -/
theorem C4_full_failure_containment_witness :
    stageStatus
      (applyOps fullRegistry (full_pipeline_ops "j" (.err "boom") (.ok sampleResult)))
      "j" "grading" = some .pending :=
  (C4_full_failure_containment "j" "boom" (.ok sampleResult)).2.1 fullRegistry rfl

/-- C2 counterexample: after the worker of the single-stage `process` job has
completed its only stage but before it has recomputed job completion — two
separate lock acquisitions, so `get_job` can observe the state in between —
the record has every stage `completed` while its status is still `running`,
falsifying the claimed iff at that observation point. -/
theorem C2_completion_counterexample :
    jobAllStagesCompleted midCompletionRegistry "j" = true ∧
    jobStatus midCompletionRegistry "j" = some .running := by
  constructor
  · rfl
  · rfl

/-- C2 (amended): for a job of each recognized type driven from creation by
its worker trace, the direction "status `completed` implies every stage
`completed`" holds at every state a reader can observe, and the full iff
holds at the quiescent states — before the worker starts and after it
finishes; transiently between the final stage completion and the
job-completion recomputation a reader may observe all stages `completed`
with the job still `running`. -/
theorem C2_completion_invariant (out pout gout : StageOutcome) :
    (((statesAlong procRegistry (processing_job_ops "j" out)).all
        fun s => completedImpliesStages s "j") = true ∧
      statusIffStages procRegistry "j" = true ∧
      statusIffStages (applyOps procRegistry (processing_job_ops "j" out)) "j" = true) ∧
    (((statesAlong gradeRegistry (grading_job_ops "j" out)).all
        fun s => completedImpliesStages s "j") = true ∧
      statusIffStages gradeRegistry "j" = true ∧
      statusIffStages (applyOps gradeRegistry (grading_job_ops "j" out)) "j" = true) ∧
    (((statesAlong fullRegistry (full_pipeline_ops "j" pout gout)).all
        fun s => completedImpliesStages s "j") = true ∧
      statusIffStages fullRegistry "j" = true ∧
      statusIffStages (applyOps fullRegistry (full_pipeline_ops "j" pout gout)) "j" =
        true) := by
  cases out <;> cases pout <;> cases gout <;>
    exact ⟨⟨rfl, rfl, rfl⟩, ⟨rfl, rfl, rfl⟩, ⟨rfl, rfl, rfl⟩⟩

/-- C3 counterexample: `str(exc)` may be the empty string; with the empty
exception message `fail_stage` stores the empty string as the job error, so
the record carries no non-empty error message, refuting the claim as stated
(which promises a non-empty stored error for every exception message). -/
theorem C3_fail_stage_counterexample :
    jobStatus (fail_stage procRegistry "j" "processing" "") "j" = some .failed ∧
    errorNonEmpty (fail_stage procRegistry "j" "processing" "") "j" = false :=
  ⟨rfl, rfl⟩

/-- C3 (amended): `fail_stage` on an existing job and stage sets the job
status to `failed` unconditionally (whatever the prior job or stage
statuses), stores the exception message as the job's error — non-empty
whenever the message is non-empty — sets the named stage's status to
`failed`, appends the message to that stage's captured stderr preceded by a
newline exactly when the stderr was already non-empty, and leaves every
other stage untouched, so earlier-completed stages keep their `completed`
status and recorded output files. -/
theorem C3_fail_stage (r : Registry) (id stage_name message : String)
    (record : JobRecord) (s : StageSnapshot)
    (hrec : get_job r id = some record)
    (hstage : alistLookup record.stages stage_name = some s) :
    ∃ record' s',
      get_job (fail_stage r id stage_name message) id = some record' ∧
      record'.status = .failed ∧
      record'.error = some message ∧
      (message ≠ "" → errorNonEmpty (fail_stage r id stage_name message) id = true) ∧
      alistLookup record'.stages stage_name = some s' ∧
      s'.status = .failed ∧
      s'.stderr = (if s.stderr ≠ "" then s.stderr ++ "\n" ++ message else message) ∧
      s'.output_files = s.output_files ∧
      (∀ other t, other ≠ stage_name → alistLookup record.stages other = some t →
        alistLookup record'.stages other = some t) := by
  simp only [get_job] at hrec
  have hg : get_job (fail_stage r id stage_name message) id =
      some { record with
        status := .failed
        error := some message
        stages := alistUpdate record.stages stage_name fun st =>
          { st with
            status := .failed
            stderr := if st.stderr ≠ "" then st.stderr ++ "\n" ++ message
              else message } } := by
    have h := alistLookup_update id (fun rec : JobRecord =>
      { rec with
        status := .failed
        error := some message
        stages := alistUpdate rec.stages stage_name fun st =>
          { st with
            status := .failed
            stderr := if st.stderr ≠ "" then st.stderr ++ "\n" ++ message
              else message } }) id r
    simp only [if_pos rfl, hrec, Option.map_some] at h
    exact h
  refine ⟨_, { s with
      status := .failed
      stderr := if s.stderr ≠ "" then s.stderr ++ "\n" ++ message else message },
    hg, rfl, rfl, ?_, ?_, rfl, rfl, rfl, ?_⟩
  · intro hm
    simp [errorNonEmpty, hg, hm]
  · rw [alistLookup_update]
    simp [hstage]
  · intro other t hne ht
    rw [alistLookup_update]
    simp [hne, ht]

/-- C3 witness: failing the fresh `process` job's stage with message
`"boom"` yields a `failed` record with a non-empty error. -/
theorem C3_fail_stage_witness :
    ∃ record', get_job failedProcRegistry "j" = some record' ∧
      record'.status = .failed ∧ record'.error = some "boom" ∧
      errorNonEmpty failedProcRegistry "j" = true := by
  obtain ⟨record', s', h1, h2, h3, h4, _⟩ :=
    C3_fail_stage procRegistry "j" "processing" "boom" sampleRecord sampleStage rfl rfl
  exact ⟨record', h1, h2, h3, h4 (by decide)⟩

/-- C5: a stage runner reports as `outputFiles` exactly the names present in
the output directory after the capability ran but not before — pre-existing
files excluded even if the capability read or left them in place — as a
duplicate-free list sorted lexicographically by name; `run_grading` computes
the identical function of the two snapshots. -/
theorem C5_new_files (before after : List String) (hnd : after.Nodup) :
    (run_processing_new_files before after).Sorted (· ≤ ·) ∧
    (run_processing_new_files before after).Nodup ∧
    (∀ x, x ∈ run_processing_new_files before after ↔ x ∈ after ∧ x ∉ before) ∧
    run_grading_new_files before after = run_processing_new_files before after := by
  refine ⟨?_, ?_, ?_, rfl⟩
  · exact (List.sorted_insertionSort _ after).filter _
  · exact ((List.perm_insertionSort _ after).nodup_iff.mpr hnd).filter _
  · intro x
    simp [run_processing_new_files, List.mem_filter,
      (List.perm_insertionSort (· ≤ ·) after).mem_iff]

/-- C5 witness at a concrete directory pair: `b` and `c` are new, the
pre-existing `a` is excluded. -/
theorem C5_new_files_witness :
    "b" ∈ run_processing_new_files ["a"] ["c", "a", "b"] ∧
    "a" ∉ run_processing_new_files ["a"] ["c", "a", "b"] := by
  have h := C5_new_files ["a"] ["c", "a", "b"] (by decide)
  refine ⟨(h.2.2.1 "b").mpr ⟨by decide, by decide⟩, fun hmem => ?_⟩
  exact ((h.2.2.1 "a").mp hmem).2 (by decide)

/-- C6 counterexample: a job created with the unrecognized type `"bogus"` has
an empty stage map; `fail_stage` (its stage name being absent from the map)
leaves it `failed`, and a subsequently applied `mark_job_completed`
(`recomputeJobCompletion`) moves the status from `failed` to `completed`,
the all-stages-completed check holding vacuously — so `failed` is not
terminal under every subsequently applied registry operation. -/
theorem C6_failed_terminal_counterexample :
    jobStatus failedEmptyStagesRegistry "j" = some .failed ∧
    jobStatus (mark_job_completed failedEmptyStagesRegistry "j") "j" =
      some .completed :=
  ⟨rfl, rfl⟩

/-- C6 (amended): once a job's status is `failed` it stays `failed` under
every registry mutation — `mark_job_running`, `mark_stage_status`,
`complete_stage`, another `fail_stage` unconditionally, and
`mark_job_completed` provided some stage of the job is not `completed` (as
always holds when the failing stage exists in the stage map); moreover no
worker trace performs any mutation after its `fail_stage`, which only ever
occurs as a trace's final operation. -/
theorem C6_failed_terminal (r : Registry) (id : String) (record : JobRecord)
    (hrec : get_job r id = some record) (hst : record.status = .failed) :
    (∀ id2, jobStatus (mark_job_running r id2) id = some .failed) ∧
    (∀ id2 stage st, jobStatus (mark_stage_status r id2 stage st) id = some .failed) ∧
    (∀ id2 stage result,
      jobStatus (complete_stage r id2 stage result) id = some .failed) ∧
    (∀ id2 stage message,
      jobStatus (fail_stage r id2 stage message) id = some .failed) ∧
    ((∃ p ∈ record.stages, p.2.status ≠ Status.completed) →
      ∀ id2, jobStatus (mark_job_completed r id2) id = some .failed) ∧
    (∀ jid out, failOnlyLast (processing_job_ops jid out) = true) ∧
    (∀ jid out, failOnlyLast (grading_job_ops jid out) = true) ∧
    (∀ jid pout gout, failOnlyLast (full_pipeline_ops jid pout gout) = true) := by
  simp only [get_job] at hrec
  refine ⟨?_, ?_, ?_, ?_, ?_, ?_, ?_, ?_⟩
  · intro id2
    unfold jobStatus get_job mark_job_running
    rw [alistLookup_update]
    by_cases h : id = id2
    · subst h; simp [hrec, hst]
    · simp [h, hrec, hst]
  · intro id2 stage st
    unfold jobStatus get_job mark_stage_status
    rw [alistLookup_update]
    by_cases h : id = id2
    · subst h; simp [hrec, hst]
    · simp [h, hrec, hst]
  · intro id2 stage result
    unfold jobStatus get_job complete_stage
    rw [alistLookup_update]
    by_cases h : id = id2
    · subst h; simp [hrec, hst]
    · simp [h, hrec, hst]
  · intro id2 stage message
    unfold jobStatus get_job fail_stage
    rw [alistLookup_update]
    by_cases h : id = id2
    · subst h; simp [hrec, hst]
    · simp [h, hrec, hst]
  · intro hstage id2
    have hallf : all_stages_completed record = false := by
      obtain ⟨p, hp, hne⟩ := hstage
      have : ¬ all_stages_completed record = true := fun hallt =>
        hne (of_decide_eq_true (List.all_eq_true.mp hallt p hp))
      simpa using this
    unfold jobStatus get_job mark_job_completed
    rw [alistLookup_update]
    by_cases h : id = id2
    · subst h; simp [hrec, hst, hallf]
    · simp [h, hrec, hst]
  · intro jid out; cases out <;> rfl
  · intro jid out; cases out <;> rfl
  · intro jid pout gout; cases pout <;> cases gout <;> rfl

/-- C6 witness: the failed `process` job (its stage `failed`) stays `failed`
under a subsequently applied `mark_job_completed`. -/
theorem C6_failed_terminal_witness :
    jobStatus (mark_job_completed failedProcRegistry "j") "j" = some .failed :=
  (C6_failed_terminal failedProcRegistry "j" failedProcRecord rfl rfl).2.2.2.2.1
    ⟨("processing", { name := "processing", status := .failed, stderr := "boom" }),
      by decide, by decide⟩ "j"

/-- C7: `complete_stage` stores each produced output path relative to the job
workspace root — the root prefix stripped — when the path is under the root,
and verbatim (unchanged) when it is not, on the now-`completed` stage
snapshot. -/
theorem C7_relative_outputs (root p : FsPath) (r : Registry)
    (id stage_name : String) (result : StageResult)
    (record : JobRecord) (s : StageSnapshot)
    (hrec : get_job r id = some record)
    (hstage : alistLookup record.stages stage_name = some s) :
    (root <+: p → relative_output root p = p.drop root.length) ∧
    (¬ root <+: p → relative_output root p = p) ∧
    (∃ record' s',
      get_job (complete_stage r id stage_name result) id = some record' ∧
      alistLookup record'.stages stage_name = some s' ∧
      s'.status = .completed ∧
      s'.output_files =
        result.output_files.map (relative_output record.paths.root)) := by
  simp only [get_job] at hrec
  refine ⟨?_, ?_, ?_⟩
  · intro h
    unfold relative_output
    rw [if_pos (List.isPrefixOf_iff_prefix.mpr h)]
  · intro h
    unfold relative_output
    rw [if_neg (fun hb => h (List.isPrefixOf_iff_prefix.mp hb))]
  · have hg : get_job (complete_stage r id stage_name result) id =
        some { record with
          stages := alistUpdate record.stages stage_name fun st =>
            { st with
              status := .completed
              stdout := result.stdout
              stderr := result.stderr
              output_files :=
                result.output_files.map (relative_output record.paths.root) } } := by
      have h := alistLookup_update id (fun rec : JobRecord =>
        { rec with
          stages := alistUpdate rec.stages stage_name fun st =>
            { st with
              status := .completed
              stdout := result.stdout
              stderr := result.stderr
              output_files :=
                result.output_files.map (relative_output rec.paths.root) } }) id r
      simp only [if_pos rfl, hrec, Option.map_some] at h
      exact h
    refine ⟨_, { s with
        status := .completed
        stdout := result.stdout
        stderr := result.stderr
        output_files := result.output_files.map (relative_output record.paths.root) },
      hg, ?_, rfl, rfl⟩
    rw [alistLookup_update]
    simp [hstage]

/-- C7 witness: completing the fresh `process` job's stage with one output
under the root (stored with the root stripped) and one outside it (stored
verbatim). -/
theorem C7_relative_outputs_witness :
    ∃ record' s',
      get_job (complete_stage procRegistry "j" "processing" sampleResult) "j" =
        some record' ∧
      alistLookup record'.stages "processing" = some s' ∧
      s'.status = .completed ∧
      s'.output_files = [["processed", "a.pdf"], ["elsewhere", "b.pdf"]] := by
  obtain ⟨record', s', h1, h2, h3, h4⟩ :=
    (C7_relative_outputs ["jobs", "j"] ["jobs", "j", "x"] procRegistry "j" "processing"
      sampleResult sampleRecord sampleStage rfl rfl).2.2
  refine ⟨record', s', h1, h2, h3, ?_⟩
  rw [h4]
  rfl

theorem run_grading_loop_written (dir : String) (evalPaper : String → PaperEval) :
    ∀ files : List String,
      (run_grading_loop dir evalPaper files).written =
        files.filter fun g => is_pdf_name g && (evalPaper g).isOk := by
  intro files
  induction files with
  | nil => rfl
  | cons f rest ih =>
    by_cases hp : is_pdf_name f = true
    · cases he : evalPaper f <;>
        simp [run_grading_loop, hp, he, PaperEval.isOk, List.filter_cons, ih]
    · have hp2 : is_pdf_name f = false := by simpa using hp
      simp [run_grading_loop, hp2, List.filter_cons, ih]

theorem run_grading_loop_stderr (dir : String) (evalPaper : String → PaperEval)
    (f m : String) (hpdf : is_pdf_name f = true) (herr : evalPaper f = .err m) :
    ∀ files : List String, f ∈ files →
      ∃ pre post,
        (run_grading_loop dir evalPaper files).stderrText =
          pre ++ grading_err_line (dir ++ "/" ++ f) m ++ post := by
  intro files
  induction files with
  | nil => intro h; cases h
  | cons g rest ih =>
    intro hmem
    rcases List.mem_cons.mp hmem with hg | hg
    · subst hg
      refine ⟨"", (run_grading_loop dir evalPaper rest).stderrText, ?_⟩
      simp [run_grading_loop, hpdf, herr]
    · obtain ⟨pre, post, hpp⟩ := ih hg
      by_cases hp : is_pdf_name g = true
      · cases he : evalPaper g with
        | ok t =>
          exact ⟨pre, post, by simp [run_grading_loop, hp, he, hpp]⟩
        | err m2 =>
          refine ⟨grading_err_line (dir ++ "/" ++ g) m2 ++ pre, post, ?_⟩
          simp [run_grading_loop, hp, he, hpp, String.append_assoc]
      · have hp2 : is_pdf_name g = false := by simpa using hp
        exact ⟨pre, post, by simp [run_grading_loop, hp2, hpp]⟩

/-- C10: inside the grading stage's per-file loop a single paper's failure is
caught: the loop continues with the remaining papers (the evaluations saved
are exactly those for pdf-named inputs whose evaluation succeeded, wherever
the failing paper sits), the failing paper's diagnostic line goes to the
captured stderr, the loop — and hence `run_grading` — returns normally, and
the owning job's worker, receiving a normal result, records the grading
stage and the job as `completed`. -/
theorem C10_single_paper_failure (dir : String) (evalPaper : String → PaperEval)
    (files : List String) (f m : String)
    (hmem : f ∈ files) (hpdf : is_pdf_name f = true) (herr : evalPaper f = .err m) :
    ((run_grading_loop dir evalPaper files).written =
      files.filter fun g => is_pdf_name g && (evalPaper g).isOk) ∧
    (∃ pre post,
      (run_grading_loop dir evalPaper files).stderrText =
        pre ++ grading_err_line (dir ++ "/" ++ f) m ++ post) ∧
    (∀ result : StageResult,
      jobStatus (applyOps gradeRegistry (grading_job_ops "j" (.ok result))) "j" =
        some .completed ∧
      stageStatus (applyOps gradeRegistry (grading_job_ops "j" (.ok result))) "j"
        "grading" = some .completed) :=
  ⟨run_grading_loop_written dir evalPaper files,
   run_grading_loop_stderr dir evalPaper f m hpdf herr files hmem,
   fun _ => ⟨rfl, rfl⟩⟩

/-- C10 witness: in a three-paper batch whose middle paper fails, the other
two evaluations are saved and the failure's diagnostic line is in stderr. -/
theorem C10_single_paper_failure_witness :
    (run_grading_loop "in" sampleEval ["a.pdf", "b.pdf", "c.pdf"]).written =
      ["a.pdf", "c.pdf"] ∧
    ∃ pre post,
      (run_grading_loop "in" sampleEval ["a.pdf", "b.pdf", "c.pdf"]).stderrText =
        pre ++ grading_err_line ("in" ++ "/" ++ "b.pdf") "boom" ++ post := by
  have h := C10_single_paper_failure "in" sampleEval ["a.pdf", "b.pdf", "c.pdf"]
    "b.pdf" "boom" (by decide) (by decide) (by decide)
  refine ⟨?_, h.2.1⟩
  rw [h.1]
  rfl

end GradeFactory
